import Mathlib

/-!
Verification development for the `rbit` command-line qBittorrent client
(`src/main.rs`). The functions below are shallow embeddings of the Rust
source: Rust `&str`/`String` values are modelled as `List Char`, with the
source's byte-level operations (`str::len`, byte slicing `s[..n]`)
modelled through the UTF-8 byte widths of the characters — a byte slice
whose end falls inside a multi-byte character panics in Rust and is
`none` here; machine integers (`u64`, `usize`) are `Nat`, `f64` progress
values are `ℚ` (every value appearing in the program's comparisons —
0.0, 0.5, 1.0 and the division by powers of two in rate formatting — is
dyadic, so the rational model agrees exactly with IEEE f64 for inputs
below 2^53), fallible operations return `Except`/`Option`, and the
process's observable side effects (network requests, printed lines) are
explicit lists returned alongside the result.
-/

namespace Rbit

/-- Rust strings, modelled as their character sequences. -/
abbrev Str := List Char

/-- Embeds `host.trim_end_matches('/')` (main.rs lines 115-121): removes
every trailing `/` character. -/
def trimEndSlashes (s : Str) : Str :=
  (s.reverse.dropWhile (fun c => c = '/')).reverse

/-- UTF-8 byte width of one character, Rust's `char::len_utf8`. -/
def charUtf8Size (c : Char) : Nat :=
  if c.toNat < 128 then 1
  else if c.toNat < 2048 then 2
  else if c.toNat < 65536 then 3
  else 4

/-- UTF-8 byte length of a string — Rust's `str::len`, the length used
by `truncate` (main.rs line 186) and the hash test (main.rs line 215). -/
def utf8Len (s : Str) : Nat :=
  (s.map charUtf8Size).sum

/-- Embeds the byte slice `&s[..n]` of a Rust string: `some` of the
characters occupying the first `n` bytes when `n` is a character
boundary of the string, and `none` — the slice panics — when `n` falls
inside a multi-byte character or past the end of the string. -/
def utf8Take : Str → Nat → Option Str
  | _, 0 => some []
  | [], _ + 1 => none
  | c :: rest, m + 1 =>
    if charUtf8Size c ≤ m + 1 then
      (utf8Take rest (m + 1 - charUtf8Size c)).map (fun t => c :: t)
    else none

/-- Embeds `fn truncate(s: &str, n: usize) -> String` (main.rs lines
185-193): `s.len() <= n` compares UTF-8 BYTE length, and `s[..n]` is a
byte slice, so a string of more than `n` bytes is cut at byte position
`n` — panicking (`none`) when that position is not a character
boundary — and `...` is appended. -/
def truncate (s : Str) (n : Nat) : Option Str :=
  if utf8Len s ≤ n then some s
  else (utf8Take s n).map (fun t => t ++ ("...").data)

/-- Embeds the short-id computation of `list_torrents` (main.rs line 215):
`if t.hash.len() >= 8 { t.hash[..8] } else { t.hash }` — again byte
length and byte slice, so a hash of at least 8 bytes whose byte position
8 is not a character boundary makes the slice panic (`none`). -/
def short_id (hash : Str) : Option Str :=
  if 8 ≤ utf8Len hash then utf8Take hash 8 else some hash

/-- The constant `kb = 1024u64` of `bytes_human` (main.rs line 173). -/
def kb : Nat := 1024

/-- Rounds `num / d` to the nearest integer, ties to even — the rounding
Rust's `{:.2}` float formatting applies to the exact value `num / d`
(which `b as f64 / 2^k as f64` computes exactly for `b < 2^53`). -/
def roundHalfEvenDiv (num d : Nat) : Nat :=
  let q := num / d
  let r := num % d
  if 2 * r < d then q
  else if d < 2 * r then q + 1
  else if q % 2 = 0 then q else q + 1

/-- Renders a count of hundredths as a number with exactly two decimal
places, as Rust's `format!("{:.2}", _)` does. -/
def decimal2 (n : Nat) : Str :=
  Nat.toDigits 10 (n / 100) ++ '.' :: [Nat.digitChar (n % 100 / 10), Nat.digitChar (n % 100 % 10)]

/-- Embeds `fn bytes_human(b: u64) -> String` (main.rs lines 172-183):
picks GB/s, MB/s, KB/s or B/s by the cascading `>=` tests and formats the
scaled value with two decimals (integer for B/s). The `f64` division by a
power of two is exact, so the rational rounding above reproduces `{:.2}`
for all `b < 2^53`. -/
def bytes_human (b : Nat) : Str :=
  if kb * kb * kb ≤ b then decimal2 (roundHalfEvenDiv (b * 100) (kb * kb * kb)) ++ (" GB/s").data
  else if kb * kb ≤ b then decimal2 (roundHalfEvenDiv (b * 100) (kb * kb)) ++ (" MB/s").data
  else if kb ≤ b then decimal2 (roundHalfEvenDiv (b * 100) kb) ++ (" KB/s").data
  else Nat.toDigits 10 b ++ (" B/s").data

/-- Rounds a rational to the nearest integer, ties to even. -/
def roundHalfEvenQ (q : ℚ) : Int :=
  let n : Int := ⌊q⌋
  let r : ℚ := q - n
  if r < 1 / 2 then n else if 1 / 2 < r then n + 1 else if n % 2 = 0 then n else n + 1

/-- Decimal rendering of an integer. -/
def intDigits (i : Int) : Str :=
  if i < 0 then '-' :: Nat.toDigits 10 i.natAbs else Nat.toDigits 10 i.natAbs

/-- Embeds `format!("{:.1}%", p * 100.0)` from `list_torrents`
(main.rs line 218): the progress as a percentage with one decimal place
and a trailing percent sign. -/
def formatPercent1 (p : ℚ) : Str :=
  let n := roundHalfEvenQ (p * 1000)
  intDigits (n / 10) ++ '.' :: Nat.digitChar (n % 10).natAbs :: ['%']

/-- Embeds `struct TorrentInfo` (main.rs lines 152-160): the fields
deserialized from the daemon's JSON; `progress`, `dlspeed` and `upspeed`
are optional. -/
structure TorrentInfo where
  name : Str
  hash : Str
  state : Str
  progress : Option ℚ
  dlspeed : Option Nat
  upspeed : Option Nat
deriving DecidableEq

/-- Embeds the filter closure of `list_torrents` (main.rs lines 203-211):
with `all` set everything passes; otherwise missing fields default to 0
and a record passes when `progress < 1.0 || dlspeed > 0 || upspeed > 0`. -/
def retain (all : Bool) (t : TorrentInfo) : Bool :=
  if all then true
  else
    let progress := t.progress.getD 0
    let dls := t.dlspeed.getD 0
    let ups := t.upspeed.getD 0
    decide (progress < 1) || decide (0 < dls) || decide (0 < ups)

/-- The `torrents.iter().filter(...)` step of `list_torrents`
(main.rs lines 203-211). -/
def filterTorrents (all : Bool) (ts : List TorrentInfo) : List TorrentInfo :=
  ts.filter (retain all)

/-- Embeds `struct TorrentRow` (main.rs lines 162-170): one display row
of the rendered table. -/
structure TorrentRow where
  id : Str
  name : Str
  status : Str
  progress : Str
  dl : Str
  up : Str
deriving DecidableEq

/-- Embeds the row-building loop body of `list_torrents` (main.rs lines
214-221): short id from the hash, name truncated at 40, status copied,
progress shown as a percentage or `-` when absent, rates through
`bytes_human` with absent rates defaulting to 0. In the id and name
columns `[]` stands where the byte slice would panic — in the program
that panic aborts `list_torrents` before any row is shown; the theorems
below observe only the status, progress and rate columns, which the id
and name computations cannot affect. -/
def toRow (t : TorrentInfo) : TorrentRow :=
  { id := (short_id t.hash).getD []
    name := (truncate t.name 40).getD []
    status := t.state
    progress := match t.progress with
      | some p => formatPercent1 p
      | none => ("-").data
    dl := bytes_human (t.dlspeed.getD 0)
    up := bytes_human (t.upspeed.getD 0) }

/-- Embeds `struct QBConfig` (main.rs lines 68-73): `host` is mandatory
within the section, credentials optional. -/
structure QBConfig where
  host : Str
  username : Option Str
  password : Option Str
deriving DecidableEq

/-- Embeds `struct Config` (main.rs lines 62-66). -/
structure Config where
  default_save_path : Option Str
  qbittorrent : Option QBConfig
deriving DecidableEq

/-- The defaulted configuration `read_config` falls back to
(main.rs lines 97-104). -/
def defaultConfig : Config :=
  { default_save_path := none, qbittorrent := none }

/-- Embeds `fn read_config` (main.rs lines 75-106) downstream of file
loading: the argument is the outcome of building and deserializing the
layered file sources (`none` when the file is missing, unreadable or
fails to parse), and any failure degrades to the default configuration. -/
def read_config (parsed : Option Config) : Config :=
  parsed.getD defaultConfig

/-- Embeds the effective-host resolution in `main` (main.rs lines
115-121): CLI `--host` wins, else the config file's `qbittorrent.host`,
else the built-in default; the two explicit sources are stripped of
trailing slashes. -/
def effectiveHost (cliHost : Option Str) (config : Config) : Str :=
  match cliHost with
  | some h => trimEndSlashes h
  | none =>
    match config.qbittorrent with
    | some qb => trimEndSlashes qb.host
    | none => ("http://127.0.0.1:8080").data

/-- One HTTP response as the daemon would deliver it: a status code and a
body. -/
structure HttpResponse where
  status : Nat
  body : Str
deriving DecidableEq

/-- The network oracle for one invocation: what the daemon would answer
to the login POST and to the add POST. A function performs network I/O
exactly when its event trace consults one of these. -/
structure Net where
  loginResp : HttpResponse
  addResp : HttpResponse
deriving DecidableEq

/-- Observable network requests issued by an operation. -/
inductive NetEvent where
  | post (url : Str) (params : List (Str × Str))
  | postMultipart (url : Str) (filename : Str) (contents : Str) (savepath : Str)
  | get (url : Str)
deriving DecidableEq

/-- Embeds the error cases that `anyhow::bail!` / `?` produce in the
source. -/
inductive RbitError where
  | loginFailed (body : Str)
  | ioError (path : Str)
  | addMagnetFailed (body : Str)
  | addFileFailed (body : Str)
deriving DecidableEq

/-- Result of one embedded operation: the `anyhow::Result`, the network
requests issued, and the lines printed, in order. -/
abbrev OpResult := Except RbitError Unit × List NetEvent × List Str

/-- A verbose `[verbose] POST url -> status` line (main.rs lines 237,
261, 300); the status is rendered by its numeric code. -/
def verbosePostLine (url : Str) (status : Nat) : Str :=
  ("[verbose] POST ").data ++ url ++ (" -> ").data ++ Nat.toDigits 10 status

/-- A verbose `[verbose] response: body` line (main.rs lines 238, 262,
301). -/
def verboseRespLine (body : Str) : Str :=
  ("[verbose] response: ").data ++ body

/-- Embeds `fn login` (main.rs lines 229-245). When either credential is
absent nothing happens and the result is `Ok(())`. Otherwise a form POST
to `{host}/api/v2/auth/login` is sent; in verbose mode the exchange is
echoed; the call succeeds exactly when the response body is the literal
`Ok.`, and otherwise fails carrying the body. -/
def login (net : Net) (host : Str) (username password : Option Str) (verbose : Bool) : OpResult :=
  match username, password with
  | some user, some pass =>
    let url := host ++ ("/api/v2/auth/login").data
    let params := [(("username").data, user), (("password").data, pass)]
    let res := net.loginResp
    let printed := if verbose then [verbosePostLine url res.status, verboseRespLine res.body] else []
    if res.body = ("Ok.").data then
      (Except.ok (), [NetEvent.post url params], printed)
    else
      (Except.error (RbitError.loginFailed res.body), [NetEvent.post url params], printed)
  | _, _ => (Except.ok (), [], [])

/-- Is an HTTP status in the success range, as `StatusCode::is_success`
tests (2xx). -/
def statusIsSuccess (status : Nat) : Bool :=
  decide (200 ≤ status) && decide (status < 300)

/-- A `[dry-run] POST url` line (main.rs lines 252, 283). -/
def dryRunPostLine (url : Str) : Str :=
  ("[dry-run] POST ").data ++ url

/-- Embeds `fn add_magnet` (main.rs lines 247-269): build the URL and
form params; in dry-run mode print them and return `Ok` without touching
the network; otherwise log in, POST the form, echo in verbose mode, and
succeed exactly on a 2xx status, failing with the response body
otherwise. -/
def add_magnet (net : Net) (host : Str) (username password : Option Str)
    (magnet save_path : Str) (dry_run verbose : Bool) : OpResult :=
  let url := host ++ ("/api/v2/torrents/add").data
  let params := [(("urls").data, magnet), (("savepath").data, save_path)]
  if dry_run then
    (Except.ok (), [],
      [dryRunPostLine url,
       ("[dry-run] form params: urls=").data ++ magnet ++ (", savepath=").data ++ save_path])
  else
    match login net host username password verbose with
    | (Except.error e, evs, outs) => (Except.error e, evs, outs)
    | (Except.ok _, evs, outs) =>
      let res := net.addResp
      let vouts := if verbose then [verbosePostLine url res.status, verboseRespLine res.body] else []
      if statusIsSuccess res.status then
        (Except.ok (), evs ++ [NetEvent.post url params], outs ++ vouts)
      else
        (Except.error (RbitError.addMagnetFailed res.body), evs ++ [NetEvent.post url params], outs ++ vouts)

/-- Models `file.file_name().and_then(|s| s.to_str()).unwrap_or("upload.torrent")`
(main.rs lines 274-278): the final `/`-separated component of the path,
with the literal fallback when none can be extracted. -/
def fileNameOf (path : Str) : Str :=
  let base := (path.reverse.takeWhile (fun c => ¬ c = '/')).reverse
  if base = [] then ("upload.torrent").data else base

/-- Embeds `fn add_torrent_file` (main.rs lines 271-308). `contents` is
the outcome of `File::open(&file)` — `none` when the file is missing or
unreadable — and, exactly as in the source, that open happens BEFORE the
dry-run test, so an unreadable file is an I/O error even in dry-run mode.
With the file open, dry-run prints the URL, file path and savepath and
returns `Ok` with no network traffic; the real path logs in, sends the
multipart POST and succeeds exactly on a 2xx status. -/
def add_torrent_file (net : Net) (host : Str) (username password : Option Str)
    (file : Str) (contents : Option Str) (save_path : Str) (dry_run verbose : Bool) : OpResult :=
  let url := host ++ ("/api/v2/torrents/add").data
  let filename := fileNameOf file
  match contents with
  | none => (Except.error (RbitError.ioError file), [], [])
  | some bytes =>
    if dry_run then
      (Except.ok (), [],
        [dryRunPostLine url,
         ("[dry-run] file: ").data ++ file,
         ("[dry-run] savepath: ").data ++ save_path])
    else
      match login net host username password verbose with
      | (Except.error e, evs, outs) => (Except.error e, evs, outs)
      | (Except.ok _, evs, outs) =>
        let res := net.addResp
        let vouts := if verbose then [verbosePostLine url res.status, verboseRespLine res.body] else []
        if statusIsSuccess res.status then
          (Except.ok (), evs ++ [NetEvent.postMultipart url filename bytes save_path], outs ++ vouts)
        else
          (Except.error (RbitError.addFileFailed res.body), evs ++ [NetEvent.postMultipart url filename bytes save_path], outs ++ vouts)

end Rbit

namespace Rbit

theorem dropWhile_replicate_append (p : Char → Bool) (c : Char) (hc : p c = true) :
    ∀ (n : Nat) (l : List Char), List.dropWhile p (List.replicate n c ++ l) = List.dropWhile p l := by
  intro n
  induction n with
  | zero => intro l; simp
  | succ k ih => intro l; simp [List.replicate_succ, List.dropWhile_cons, hc, ih l]

theorem dropWhile_idem (p : Char → Bool) :
    ∀ l : List Char, List.dropWhile p (List.dropWhile p l) = List.dropWhile p l := by
  intro l
  induction l with
  | nil => rfl
  | cons a l ih =>
    by_cases h : p a = true
    · simp [List.dropWhile_cons, h, ih]
    · simp [List.dropWhile_cons, h]

theorem trimEndSlashes_append_replicate (s : Str) (n : Nat) :
    trimEndSlashes (s ++ List.replicate n '/') = trimEndSlashes s := by
  unfold trimEndSlashes
  rw [List.reverse_append, List.reverse_replicate,
    dropWhile_replicate_append (fun c => c = '/') '/' (by decide)]

/-- C2: for every settings value in which the username or the password is
absent, `login` performs zero network calls (empty request trace) and
returns success. -/
theorem C2_login_absent_credentials_noop :
    (∀ (net : Net) (host : Str) (p : Option Str) (v : Bool),
      login net host none p v = (Except.ok (), [], [])) ∧
    (∀ (net : Net) (host : Str) (u : Option Str) (v : Bool),
      login net host u none v = (Except.ok (), [], [])) := by
  constructor
  · intro net host p v; rfl
  · intro net host u v; cases u <;> rfl

/-- C3: with both credentials present, `login` succeeds exactly when the
response body is the literal `Ok.` (whatever the HTTP status), and on any
other body fails with an authentication error carrying that body. -/
theorem C3_login_body_ok_criterion :
    ∀ (net : Net) (host : Str) (u p : Str) (v : Bool),
      (net.loginResp.body = ("Ok.").data →
        login net host (some u) (some p) v =
          (Except.ok (),
           [NetEvent.post (host ++ ("/api/v2/auth/login").data)
             [(("username").data, u), (("password").data, p)]],
           if v then [verbosePostLine (host ++ ("/api/v2/auth/login").data) net.loginResp.status,
                      verboseRespLine net.loginResp.body] else [])) ∧
      (net.loginResp.body ≠ ("Ok.").data →
        (login net host (some u) (some p) v).1 =
          Except.error (RbitError.loginFailed net.loginResp.body)) ∧
      ((login net host (some u) (some p) v).1 = Except.ok () ↔
        net.loginResp.body = ("Ok.").data) := by
  intro net host u p v
  refine ⟨?_, ?_, ?_⟩
  · intro h; simp [login, h]
  · intro h; simp [login, h]
  · by_cases h : net.loginResp.body = ("Ok.").data <;> simp [login, h]

theorem C3_login_body_ok_criterion_witness :
    (login { loginResp := { status := 200, body := ("Ok.").data },
             addResp := { status := 200, body := [] } }
        ("http://127.0.0.1:8080").data (some ("admin").data) (some ("pw").data) false).1
      = Except.ok () ∧
    (login { loginResp := { status := 200, body := ("Fails.").data },
             addResp := { status := 200, body := [] } }
        ("http://127.0.0.1:8080").data (some ("admin").data) (some ("pw").data) false).1
      = Except.error (RbitError.loginFailed ("Fails.").data) := by
  constructor
  · exact (C3_login_body_ok_criterion
      { loginResp := { status := 200, body := ("Ok.").data },
        addResp := { status := 200, body := [] } }
      ("http://127.0.0.1:8080").data ("admin").data ("pw").data false).2.2.2 rfl
  · exact (C3_login_body_ok_criterion
      { loginResp := { status := 200, body := ("Fails.").data },
        addResp := { status := 200, body := [] } }
      ("http://127.0.0.1:8080").data ("admin").data ("pw").data false).2.1 (by decide)

theorem utf8Len_cons (c : Char) (rest : Str) :
    utf8Len (c :: rest) = charUtf8Size c + utf8Len rest := by
  simp [utf8Len]

theorem utf8Take_prefix_len :
    ∀ (s : Str) (n : Nat) (t : Str), utf8Take s n = some t → t <+: s ∧ utf8Len t = n := by
  intro s
  induction s with
  | nil =>
    intro n t h
    cases n with
    | zero =>
      simp only [utf8Take, Option.some.injEq] at h
      subst h
      exact ⟨List.prefix_rfl, rfl⟩
    | succ m => simp [utf8Take] at h
  | cons c rest ih =>
    intro n t h
    cases n with
    | zero =>
      simp only [utf8Take, Option.some.injEq] at h
      subst h
      exact ⟨List.nil_prefix, rfl⟩
    | succ m =>
      simp only [utf8Take] at h
      by_cases hs : charUtf8Size c ≤ m + 1
      · rw [if_pos hs] at h
        cases hr : utf8Take rest (m + 1 - charUtf8Size c) with
        | none => rw [hr] at h; simp at h
        | some t' =>
          rw [hr] at h
          simp only [Option.map_some', Option.some.injEq] at h
          obtain ⟨hpre, hlen⟩ := ih (m + 1 - charUtf8Size c) t' hr
          refine ⟨?_, ?_⟩
          · rw [← h]
            exact List.cons_prefix_cons.mpr ⟨rfl, hpre⟩
          · rw [← h, utf8Len_cons, hlen]
            omega
      · rw [if_neg hs] at h
        simp at h

theorem utf8Len_ascii :
    ∀ s : Str, (∀ c ∈ s, c.toNat < 128) → utf8Len s = s.length := by
  intro s
  induction s with
  | nil => intro _; rfl
  | cons c rest ih =>
    intro hA
    have hc : c.toNat < 128 := hA c (List.mem_cons_self c rest)
    have h1 : charUtf8Size c = 1 := by simp [charUtf8Size, hc]
    rw [utf8Len_cons, h1, ih (fun x hx => hA x (List.mem_cons_of_mem c hx))]
    simp [Nat.add_comm]

theorem utf8Take_ascii :
    ∀ s : Str, (∀ c ∈ s, c.toNat < 128) →
      ∀ n, n ≤ s.length → utf8Take s n = some (s.take n) := by
  intro s
  induction s with
  | nil =>
    intro _ n hn
    have : n = 0 := Nat.le_zero.mp hn
    simp [this, utf8Take]
  | cons c rest ih =>
    intro hA n hn
    cases n with
    | zero => simp [utf8Take]
    | succ m =>
      have hc : c.toNat < 128 := hA c (List.mem_cons_self c rest)
      have h1 : charUtf8Size c = 1 := by simp [charUtf8Size, hc]
      have hm : m ≤ rest.length := by simpa using hn
      simp only [utf8Take, h1]
      rw [if_pos (by omega)]
      rw [show m + 1 - 1 = m from rfl,
        ih (fun x hx => hA x (List.mem_cons_of_mem c hx)) m hm]
      simp

/-- C4 as stated is false: the name made of 25 copies of the two-byte
character `é` has 25 characters — at most 40, so the claim requires it
displayed unchanged — but the program compares its UTF-8 byte length 50
against 40 and truncates, displaying only the first 20 characters plus
`...`. -/
theorem C4_truncated_name_counterexample :
    (List.replicate 25 'é').length = 25 ∧
    truncate (List.replicate 25 'é') 40 ≠ some (List.replicate 25 'é') ∧
    truncate (List.replicate 25 'é') 40 = some (List.replicate 20 'é' ++ ("...").data) := by
  refine ⟨by decide, by decide, by decide⟩

/-- C4 amended: `truncate` compares the name's UTF-8 byte length with
40 — a name of at most 40 bytes is unchanged; a longer name is cut at
byte position 40, yielding the characters occupying its first 40 bytes
(a prefix of byte length exactly 40) followed by the literal `...` when
that position is a character boundary, and panicking (`none`) when it
falls inside a multi-byte character. On ASCII names bytes coincide with
characters: a 41-character ASCII name yields its first 40 characters
plus `...` and a 40-character ASCII name is unchanged. -/
theorem C4_truncated_name_bytes :
    (∀ s : Str, utf8Len s ≤ 40 → truncate s 40 = some s) ∧
    (∀ (s t : Str), 40 < utf8Len s → utf8Take s 40 = some t →
      truncate s 40 = some (t ++ ("...").data) ∧ t <+: s ∧ utf8Len t = 40) ∧
    (∀ s : Str, 40 < utf8Len s → utf8Take s 40 = none → truncate s 40 = none) ∧
    truncate (List.replicate 41 'a') 40 = some (List.replicate 40 'a' ++ ("...").data) ∧
    truncate (List.replicate 40 'a') 40 = some (List.replicate 40 'a') ∧
    truncate (List.replicate 14 '€') 40 = none := by
  refine ⟨?_, ?_, ?_, by decide, by decide, by decide⟩
  · intro s h; simp only [truncate]; rw [if_pos h]
  · intro s t h ht
    obtain ⟨hpre, hlen⟩ := utf8Take_prefix_len s 40 t ht
    refine ⟨?_, hpre, hlen⟩
    simp only [truncate]
    rw [if_neg (by omega), ht]
    rfl
  · intro s h ht
    simp only [truncate]
    rw [if_neg (by omega), ht]
    rfl

theorem C4_truncated_name_bytes_witness :
    truncate (("short name").data) 40 = some (("short name").data) ∧
    truncate (List.replicate 50 'x') 40 = some (List.replicate 40 'x' ++ ("...").data) ∧
    truncate (List.replicate 15 '€') 40 = none :=
  ⟨C4_truncated_name_bytes.1 (("short name").data) (by decide),
   (C4_truncated_name_bytes.2.1 (List.replicate 50 'x') (List.replicate 40 'x')
     (by decide) (by decide)).1,
   C4_truncated_name_bytes.2.2.1 (List.replicate 15 '€') (by decide) (by decide)⟩

/-- C9 as stated is false: the hash `aaaaaaa€` has 10 UTF-8 bytes, so
the program takes the byte slice `t.hash[..8]`, and byte position 8
falls inside the three-byte character `€` — the slice panics (`none`
here), refuting that the short id never errors or panics for arbitrary
hash contents. -/
theorem C9_short_id_counterexample :
    short_id ("aaaaaaa€").data = none := by decide

/-- C9 amended: the short id is computed from UTF-8 bytes — a hash of
fewer than 8 bytes passes through whole, a hash of at least 8 bytes is
cut to the characters occupying its first 8 bytes (a prefix of byte
length exactly 8, so never padded) when byte position 8 is a character
boundary, and the byte slice panics when that position falls inside a
multi-byte character. For ASCII hashes — in particular the daemon's
40-hex-character identifiers — the computation is total and never
panics. -/
theorem C9_short_id_bytes :
    (∀ h : Str, utf8Len h < 8 → short_id h = some h) ∧
    (∀ (h t : Str), 8 ≤ utf8Len h → utf8Take h 8 = some t →
      short_id h = some t ∧ t <+: h ∧ utf8Len t = 8) ∧
    (∀ (h t : Str), short_id h = some t → utf8Len t = min 8 (utf8Len h) ∧ t <+: h) ∧
    (∀ h : Str, (∀ c ∈ h, c.toNat < 128) →
      short_id h = some (if 8 ≤ h.length then h.take 8 else h)) ∧
    short_id ("αααααα").data = some (("αααα").data) := by
  refine ⟨?_, ?_, ?_, ?_, by decide⟩
  · intro h hl; simp only [short_id]; rw [if_neg (by omega)]
  · intro h t hl ht
    obtain ⟨hpre, hlen⟩ := utf8Take_prefix_len h 8 t ht
    refine ⟨?_, hpre, hlen⟩
    simp only [short_id]
    rw [if_pos hl, ht]
  · intro h t hst
    simp only [short_id] at hst
    by_cases hl : 8 ≤ utf8Len h
    · rw [if_pos hl] at hst
      obtain ⟨hpre, hlen⟩ := utf8Take_prefix_len h 8 t hst
      exact ⟨by omega, hpre⟩
    · rw [if_neg hl] at hst
      simp only [Option.some.injEq] at hst
      subst hst
      exact ⟨by omega, List.prefix_rfl⟩
  · intro h hA
    have hlen := utf8Len_ascii h hA
    by_cases hl : 8 ≤ h.length
    · rw [if_pos hl]
      simp only [short_id]
      rw [if_pos (by omega), utf8Take_ascii h hA 8 hl]
    · rw [if_neg hl]
      simp only [short_id]
      rw [if_neg (by omega)]

theorem C9_short_id_bytes_witness :
    short_id ("ab").data = some (("ab").data) ∧
    short_id ("0123456789abcdef").data = some (("01234567").data) ∧
    short_id ("ββββ").data = some (("ββββ").data) ∧
    short_id ("da39a3ee5e6b4b0d3255bfef95601890afd80709").data =
      some ((("da39a3ee5e6b4b0d3255bfef95601890afd80709").data).take 8) := by
  refine ⟨?_, ?_, ?_, ?_⟩
  · exact C9_short_id_bytes.1 (("ab").data) (by decide)
  · exact (C9_short_id_bytes.2.1 (("0123456789abcdef").data) (("01234567").data)
      (by decide) (by decide)).1
  · exact (C9_short_id_bytes.2.1 (("ββββ").data) (("ββββ").data)
      (by decide) (by decide)).1
  · have := C9_short_id_bytes.2.2.2.1
      (("da39a3ee5e6b4b0d3255bfef95601890afd80709").data) (by decide)
    rw [this]
    rw [if_pos (by decide)]

/-- C5: `bytes_human` renders a rate in the largest unit among B/s, KB/s,
MB/s, GB/s in which the value is at least 1 of that unit — an integer for
B/s and a two-decimal value (the exact quotient rounded to hundredths)
for KB/s and above — and the three reference points 0, 2048 and
1073741824 render as `0 B/s`, `2.00 KB/s` and `1.00 GB/s`. -/
theorem C5_bytes_human_format :
    (∀ b : Nat, b < kb → bytes_human b = Nat.toDigits 10 b ++ (" B/s").data) ∧
    (∀ b : Nat, kb ≤ b → b < kb * kb →
      bytes_human b = decimal2 (roundHalfEvenDiv (b * 100) kb) ++ (" KB/s").data) ∧
    (∀ b : Nat, kb * kb ≤ b → b < kb * kb * kb →
      bytes_human b = decimal2 (roundHalfEvenDiv (b * 100) (kb * kb)) ++ (" MB/s").data) ∧
    (∀ b : Nat, kb * kb * kb ≤ b →
      bytes_human b = decimal2 (roundHalfEvenDiv (b * 100) (kb * kb * kb)) ++ (" GB/s").data) ∧
    (∀ n : Nat, ∃ ip d1 d2, decimal2 n = ip ++ '.' :: [d1, d2]) ∧
    bytes_human 0 = ("0 B/s").data ∧
    bytes_human 2048 = ("2.00 KB/s").data ∧
    bytes_human 1073741824 = ("1.00 GB/s").data := by
  refine ⟨?_, ?_, ?_, ?_, ?_, by decide, by decide, by decide⟩
  · intro b h
    simp only [bytes_human, kb] at h ⊢
    rw [if_neg (by omega), if_neg (by omega), if_neg (by omega)]
  · intro b h1 h2
    simp only [bytes_human, kb] at h1 h2 ⊢
    rw [if_neg (by omega), if_neg (by omega), if_pos (by omega)]
  · intro b h1 h2
    simp only [bytes_human, kb] at h1 h2 ⊢
    rw [if_neg (by omega), if_pos (by omega)]
  · intro b h
    simp only [bytes_human, kb] at h ⊢
    rw [if_pos (by omega)]
  · intro n
    exact ⟨Nat.toDigits 10 (n / 100), Nat.digitChar (n % 100 / 10), Nat.digitChar (n % 100 % 10), rfl⟩

theorem C5_bytes_human_format_witness :
    bytes_human 5 = Nat.toDigits 10 5 ++ (" B/s").data ∧
    bytes_human 4096 = decimal2 (roundHalfEvenDiv 409600 kb) ++ (" KB/s").data ∧
    bytes_human 3145728 = decimal2 (roundHalfEvenDiv 314572800 (kb * kb)) ++ (" MB/s").data ∧
    bytes_human 2147483648 = decimal2 (roundHalfEvenDiv 214748364800 (kb * kb * kb)) ++ (" GB/s").data :=
  ⟨C5_bytes_human_format.1 5 (by decide),
   C5_bytes_human_format.2.1 4096 (by decide) (by decide),
   C5_bytes_human_format.2.2.1 3145728 (by decide) (by decide),
   C5_bytes_human_format.2.2.2.1 2147483648 (by decide)⟩

/-- C6: with `show_all` false a record is retained exactly when its
progress (defaulted to 0) is below 1.0 or one of its rates (defaulted to
0) is positive; with `show_all` true everything is retained; the
fully-complete idle record is dropped only by the active view, and a
half-complete record survives both views. -/
theorem C6_active_filter_policy :
    (∀ (ts : List TorrentInfo) (t : TorrentInfo),
      t ∈ filterTorrents false ts ↔
        t ∈ ts ∧ (t.progress.getD 0 < 1 ∨ 0 < t.dlspeed.getD 0 ∨ 0 < t.upspeed.getD 0)) ∧
    (∀ ts : List TorrentInfo, filterTorrents true ts = ts) ∧
    retain false { name := [], hash := [], state := [],
                   progress := some 1, dlspeed := some 0, upspeed := some 0 } = false ∧
    retain true { name := [], hash := [], state := [],
                  progress := some 1, dlspeed := some 0, upspeed := some 0 } = true ∧
    retain false { name := [], hash := [], state := [],
                   progress := some (1 / 2), dlspeed := some 0, upspeed := some 0 } = true ∧
    retain true { name := [], hash := [], state := [],
                  progress := some (1 / 2), dlspeed := some 0, upspeed := some 0 } = true := by
  refine ⟨?_, ?_, by norm_num [retain], by norm_num [retain], by norm_num [retain], by norm_num [retain]⟩
  · intro ts t
    simp [filterTorrents, List.mem_filter, retain, or_assoc]
  · intro ts
    simp [filterTorrents, retain]

/-- C7: the effective host is the CLI flag when given (normalized), else
the config file's host (normalized), else the built-in default; and a
missing or malformed config file degrades to the default configuration,
so resolution yields the built-in default host. -/
theorem C7_host_precedence :
    (∀ (h : Str) (cfg : Config), effectiveHost (some h) cfg = trimEndSlashes h) ∧
    (∀ (dsp : Option Str) (qb : QBConfig),
      effectiveHost none { default_save_path := dsp, qbittorrent := some qb } =
        trimEndSlashes qb.host) ∧
    (∀ dsp : Option Str,
      effectiveHost none { default_save_path := dsp, qbittorrent := none } =
        ("http://127.0.0.1:8080").data) ∧
    read_config none = defaultConfig ∧
    effectiveHost none (read_config none) = ("http://127.0.0.1:8080").data := by
  refine ⟨?_, ?_, ?_, rfl, rfl⟩
  · intro h cfg; rfl
  · intro dsp qb; rfl
  · intro dsp; rfl

/-- C8: stripping trailing slashes from a host gives the same stored
value for any number of trailing slashes as for exactly one, the
normalization is idempotent, and `http://x:8080/` is stored as
`http://x:8080`. -/
theorem C8_trailing_slash_normalization :
    (∀ (s : Str) (n : Nat),
      trimEndSlashes (s ++ List.replicate n '/') = trimEndSlashes (s ++ ['/'])) ∧
    (∀ s : Str, trimEndSlashes (trimEndSlashes s) = trimEndSlashes s) ∧
    trimEndSlashes ("http://x:8080/").data = ("http://x:8080").data := by
  refine ⟨?_, ?_, by decide⟩
  · intro s n
    have h1 := trimEndSlashes_append_replicate s n
    have h2 := trimEndSlashes_append_replicate s 1
    simp only [List.replicate_one] at h2
    rw [h1, h2]
  · intro s
    unfold trimEndSlashes
    rw [List.reverse_reverse, dropWhile_idem]

/-- C10: a record with no progress field is always retained by the
active view (the filter defaults it to 0), its progress column displays
the literal `-`, and absent rates default to 0 and display as `0 B/s`. -/
theorem C10_absent_fields_defaults :
    (∀ t : TorrentInfo, t.progress = none → retain false t = true) ∧
    (∀ t : TorrentInfo, t.progress = none → (toRow t).progress = ("-").data) ∧
    (∀ t : TorrentInfo, t.dlspeed = none → (toRow t).dl = ("0 B/s").data) ∧
    (∀ t : TorrentInfo, t.upspeed = none → (toRow t).up = ("0 B/s").data) := by
  refine ⟨?_, ?_, ?_, ?_⟩
  · intro t h; norm_num [retain, h]
  · intro t h; simp [toRow, h]
  · intro t h
    simp only [toRow, h, Option.getD_none]
    decide
  · intro t h
    simp only [toRow, h, Option.getD_none]
    decide

theorem C10_absent_fields_defaults_witness :
    retain false { name := [], hash := [], state := [],
                   progress := none, dlspeed := none, upspeed := none } = true ∧
    (toRow { name := [], hash := [], state := [],
             progress := none, dlspeed := none, upspeed := none }).progress = ("-").data ∧
    (toRow { name := [], hash := [], state := [],
             progress := none, dlspeed := none, upspeed := none }).dl = ("0 B/s").data ∧
    (toRow { name := [], hash := [], state := [],
             progress := none, dlspeed := none, upspeed := none }).up = ("0 B/s").data :=
  ⟨C10_absent_fields_defaults.1 _ rfl,
   C10_absent_fields_defaults.2.1 _ rfl,
   C10_absent_fields_defaults.2.2.1 _ rfl,
   C10_absent_fields_defaults.2.2.2 _ rfl⟩

/-- C1 as stated is false: in `add_torrent_file` the local file is opened
before the dry-run test, so a dry-run add of a missing `.torrent` file
returns an I/O error rather than succeeding unconditionally. Concrete
input: dry_run true, no credentials, file `missing.torrent` whose open
fails. -/
theorem C1_dry_run_counterexample :
    add_torrent_file
      { loginResp := { status := 200, body := ("Ok.").data },
        addResp := { status := 200, body := [] } }
      ("http://127.0.0.1:8080").data none none
      ("missing.torrent").data none ("/downloads").data true false
      = (Except.error (RbitError.ioError ("missing.torrent").data), [], []) ∧
    (add_torrent_file
      { loginResp := { status := 200, body := ("Ok.").data },
        addResp := { status := 200, body := [] } }
      ("http://127.0.0.1:8080").data none none
      ("missing.torrent").data none ("/downloads").data true false).1
      ≠ Except.ok () := by
  constructor
  · rfl
  · intro hcontra
    exact Except.noConfusion hcontra

/-- C1 amended: with dry_run set, the magnet variant issues no network
request, skips login, prints the target URL and the form parameters, and
succeeds unconditionally; the file variant opens the local file first —
when the open succeeds it likewise issues no network request, skips
login, prints the URL, file path and savepath, and succeeds, but when the
file is missing or unreadable it fails with an I/O error even in dry-run
mode. -/
theorem C1_dry_run_amended :
    (∀ (net : Net) (host : Str) (u p : Option Str) (magnet sp : Str) (v : Bool),
      add_magnet net host u p magnet sp true v =
        (Except.ok (), [],
          [dryRunPostLine (host ++ ("/api/v2/torrents/add").data),
           ("[dry-run] form params: urls=").data ++ magnet ++ (", savepath=").data ++ sp])) ∧
    (∀ (net : Net) (host : Str) (u p : Option Str) (file c sp : Str) (v : Bool),
      add_torrent_file net host u p file (some c) sp true v =
        (Except.ok (), [],
          [dryRunPostLine (host ++ ("/api/v2/torrents/add").data),
           ("[dry-run] file: ").data ++ file,
           ("[dry-run] savepath: ").data ++ sp])) ∧
    (∀ (net : Net) (host : Str) (u p : Option Str) (file sp : Str) (v : Bool),
      add_torrent_file net host u p file none sp true v =
        (Except.error (RbitError.ioError file), [], [])) := by
  refine ⟨?_, ?_, ?_⟩
  · intro net host u p magnet sp v; rfl
  · intro net host u p file c sp v; rfl
  · intro net host u p file sp v; rfl

end Rbit
